import Mathlib

/-!
Verification development for the discovery-engine pipeline.

The definitions below are a shallow embedding of the TypeScript step
handlers of the repository:
- the question judger (src/unnamed/part_003, question-judger handler),
- the report compiler (steps/report-compiler.event.step.ts),
- the content extractor (src/unnamed/part_005, content-extractor handler),
- the query generator (src/unnamed/part_007, query-generator handler),
- the exa searcher (steps/exa-searcher.event.step.ts),
- the question brainstormer (steps/question-brainstormer.event.step.ts),
- the report retriever (steps/report-retriever.api.step.ts).

External collaborators (OpenAI completions, the Exa search service, fetch,
JSDOM plus Readability, JSON.parse) are modeled as oracle arguments giving
their observable outcomes; everything the handlers compute from those
outcomes is translated directly from the source.  JavaScript numbers are
modeled as rationals, JavaScript string truthiness as an emptiness test,
and an optional field as an Option.
-/

/-- One evaluation criterion: a numeric score and a justification string.
Mirrors the EvaluationCriterion interface of the source. -/
structure EvaluationCriterion where
  score : ℚ
  justification : String
deriving DecidableEq, Repr

/-- A fully evaluated research question.  Mirrors the EvaluatedQuestion
interface of the source; the optional error field is an Option. -/
structure EvaluatedQuestion where
  question : String
  novelty : EvaluationCriterion
  feasibility : EvaluationCriterion
  impact : EvaluationCriterion
  crossDisciplinary : EvaluationCriterion
  overallScore : ℚ
  error : Option String
deriving DecidableEq, Repr

/-- Metadata block of the final report. -/
structure ReportMetadata where
  totalQuestionsEvaluated : Nat
  questionsInReport : Nat
deriving DecidableEq, Repr

/-- The final report assembled by the report compiler.  The timestamp is a
parameter of the embedding (`new Date().toISOString()` in the source). -/
structure FinalReport where
  traceId : String
  seedTopic : String
  timestamp : String
  topQuestions : List EvaluatedQuestion
  metadata : ReportMetadata
deriving DecidableEq, Repr

/-- JavaScript truthiness of the optional error field: `!q.error` in the
source is false exactly when the field holds a non-empty string. -/
def errFlagged (q : EvaluatedQuestion) : Bool :=
  match q.error with
  | none => false
  | some s => !s.isEmpty

/-- The filter step of the report compiler:
`evaluatedQuestions.filter(q => !q.error)`. -/
def validQuestions (evq : List EvaluatedQuestion) : List EvaluatedQuestion :=
  evq.filter (fun q => !errFlagged q)

/-- The ordering used by the compiler sort:
`(a, b) => b.overallScore - a.overallScore` puts `a` no later than `b`
exactly when the score of `b` is at most the score of `a`. -/
def scoreGE (a b : EvaluatedQuestion) : Prop :=
  b.overallScore ≤ a.overallScore

instance : DecidableRel scoreGE :=
  fun a b => inferInstanceAs (Decidable (b.overallScore ≤ a.overallScore))

instance : IsTotal EvaluatedQuestion scoreGE :=
  ⟨fun a b => le_total b.overallScore a.overallScore⟩

instance : IsTrans EvaluatedQuestion scoreGE :=
  ⟨fun _ _ _ hab hbc => le_trans hbc hab⟩

/-- The sort step of the compiler.  `Array.prototype.sort` is stable, and a
stable sort with respect to a total preorder has a unique result, so it is
modeled by stable insertion sort with respect to `scoreGE`. -/
def rankQuestions (evq : List EvaluatedQuestion) : List EvaluatedQuestion :=
  (validQuestions evq).insertionSort scoreGE

/-- Number of top questions kept in the report (TOP_N_QUESTIONS = 5). -/
def TOP_N_QUESTIONS : Nat := 5

/-- JavaScript `seedTopic || fallback` on an optional string. -/
def jsOrElse (s : Option String) (fallback : String) : String :=
  match s with
  | none => fallback
  | some v => if v.isEmpty then fallback else v

/-- The report-compiler handler, success path: filter out flagged
evaluations, stable-sort by descending overall score, keep the first
TOP_N_QUESTIONS, and assemble the report with its metadata counts. -/
def compileReport (traceId : String) (seedTopic : Option String)
    (timestamp : String) (evaluatedQuestions : List EvaluatedQuestion) :
    FinalReport :=
  let topQuestions := (rankQuestions evaluatedQuestions).take TOP_N_QUESTIONS
  { traceId := traceId
    seedTopic := jsOrElse seedTopic "Unknown"
    timestamp := timestamp
    topQuestions := topQuestions
    metadata :=
      { totalQuestionsEvaluated := evaluatedQuestions.length
        questionsInReport := topQuestions.length } }

theorem take_sorted_scoreGE (l : List EvaluatedQuestion) (n : Nat) :
    List.Sorted scoreGE ((l.insertionSort scoreGE).take n) :=
  (List.sorted_insertionSort scoreGE l).sublist (List.take_sublist n _)

theorem mem_rankQuestions {q : EvaluatedQuestion}
    {evq : List EvaluatedQuestion} (h : q ∈ rankQuestions evq) :
    errFlagged q = false := by
  have hmem : q ∈ validQuestions evq := by
    simpa [rankQuestions] using h
  have := List.of_mem_filter hmem
  simpa using this

theorem filter_score_orderedInsert (s : ℚ) (a : EvaluatedQuestion)
    (l : List EvaluatedQuestion) :
    (l.orderedInsert scoreGE a).filter (fun q => decide (q.overallScore = s)) =
      (if a.overallScore = s then [a] else []) ++
        l.filter (fun q => decide (q.overallScore = s)) := by
  induction l with
  | nil =>
    by_cases h : a.overallScore = s <;>
      simp [List.orderedInsert, List.filter_cons, h]
  | cons b t ih =>
    rw [List.orderedInsert]
    by_cases hr : scoreGE a b
    · rw [if_pos hr]
      by_cases h : a.overallScore = s <;>
        simp [List.filter_cons, h]
    · rw [if_neg hr]
      by_cases hb : b.overallScore = s
      · have hlt : a.overallScore < b.overallScore := lt_of_not_le hr
        have ha : a.overallScore ≠ s := ne_of_lt (hb ▸ hlt)
        simp [List.filter_cons, hb, ih, ha]
      · simp [List.filter_cons, hb, ih]

theorem filter_score_insertionSort (s : ℚ) (l : List EvaluatedQuestion) :
    (l.insertionSort scoreGE).filter (fun q => decide (q.overallScore = s)) =
      l.filter (fun q => decide (q.overallScore = s)) := by
  induction l with
  | nil => rfl
  | cons a t ih =>
    rw [List.insertionSort, filter_score_orderedInsert, ih, List.filter_cons]
    by_cases h : a.overallScore = s <;> simp [h]

/-- Concrete error-flagged evaluated question used by witnesses. -/
def wErrQuestion : EvaluatedQuestion :=
  { question := "q0"
    novelty := ⟨0, "Evaluation Error"⟩
    feasibility := ⟨0, "Evaluation Error"⟩
    impact := ⟨0, "Evaluation Error"⟩
    crossDisciplinary := ⟨0, "Evaluation Error"⟩
    overallScore := 0
    error := some "boom" }

/-- Concrete valid evaluated question used by witnesses, score 5. -/
def wTieA : EvaluatedQuestion :=
  { question := "qa"
    novelty := ⟨5, "na"⟩
    feasibility := ⟨5, "fa"⟩
    impact := ⟨5, "ia"⟩
    crossDisciplinary := ⟨5, "ca"⟩
    overallScore := 5
    error := none }

/-- Second concrete valid evaluated question, also score 5. -/
def wTieB : EvaluatedQuestion :=
  { question := "qb"
    novelty := ⟨5, "nb"⟩
    feasibility := ⟨5, "fb"⟩
    impact := ⟨5, "ib"⟩
    crossDisciplinary := ⟨5, "cb"⟩
    overallScore := 5
    error := none }

/-- C1: for every evaluated-question list given to the report compiler, the
final report has topQuestions sorted in non-increasing order of
overallScore, of length at most 5, with no entry whose error field is
flagged (holds a non-empty error string, the truthiness test of the
source); its metadata records totalQuestionsEvaluated equal to the input
length and questionsInReport equal to the topQuestions length; and when no
entry survives the error filter the report still has an empty topQuestions
list, not an error. -/
theorem report_compiler_top_questions_spec
    (traceId : String) (seedTopic : Option String) (timestamp : String)
    (evq : List EvaluatedQuestion) :
    List.Sorted scoreGE (compileReport traceId seedTopic timestamp evq).topQuestions ∧
    (compileReport traceId seedTopic timestamp evq).topQuestions.length ≤ 5 ∧
    (∀ q ∈ (compileReport traceId seedTopic timestamp evq).topQuestions,
      errFlagged q = false) ∧
    (compileReport traceId seedTopic timestamp evq).metadata.totalQuestionsEvaluated
      = evq.length ∧
    (compileReport traceId seedTopic timestamp evq).metadata.questionsInReport
      = (compileReport traceId seedTopic timestamp evq).topQuestions.length ∧
    (validQuestions evq = [] →
      (compileReport traceId seedTopic timestamp evq).topQuestions = []) := by
  refine ⟨take_sorted_scoreGE (validQuestions evq) TOP_N_QUESTIONS, ?_, ?_, rfl, rfl, ?_⟩
  · show ((rankQuestions evq).take TOP_N_QUESTIONS).length ≤ 5
    rw [List.length_take]
    exact min_le_left _ _
  · intro q hq
    have hq2 : q ∈ rankQuestions evq :=
      (List.take_sublist TOP_N_QUESTIONS (rankQuestions evq)).subset hq
    exact mem_rankQuestions hq2
  · intro hnil
    simp [compileReport, rankQuestions, hnil]

/-- C1 witness: on a list whose only entry is error-flagged, the compiled
report has an empty topQuestions list. -/
theorem report_compiler_top_questions_spec_witness :
    (compileReport "t1" (some "topic") "ts" [wErrQuestion]).topQuestions = [] :=
  (report_compiler_top_questions_spec "t1" (some "topic") "ts"
    [wErrQuestion]).2.2.2.2.2 (by decide)

/-- C6: re-invoking the report compiler on the same evaluated-question
artifact yields an identical ranked topQuestions list (the timestamp does
not influence the ranking), and the descending-score sort is stable:
restricted to any fixed overall score, the ranked list equals the filtered
input list, so tied entries stay in input order. -/
theorem report_compiler_rank_deterministic_and_stable
    (traceId : String) (seedTopic : Option String) (ts1 ts2 : String)
    (evq : List EvaluatedQuestion) :
    (compileReport traceId seedTopic ts1 evq).topQuestions =
      (compileReport traceId seedTopic ts2 evq).topQuestions ∧
    ∀ s : ℚ, (rankQuestions evq).filter (fun q => decide (q.overallScore = s)) =
      (validQuestions evq).filter (fun q => decide (q.overallScore = s)) :=
  ⟨rfl, fun s => filter_score_insertionSort s (validQuestions evq)⟩

/-- C6 witness: two distinct questions tied at overall score 5 keep their
input order in the ranked list. -/
theorem report_compiler_rank_deterministic_and_stable_witness :
    (rankQuestions [wTieA, wTieB]).filter (fun q => decide (q.overallScore = 5)) =
      [wTieA, wTieB] :=
  ((report_compiler_rank_deterministic_and_stable "" none "" "" [wTieA, wTieB]).2 5).trans
    (by decide)

/-- Heap of JavaScript arrays, indexed by allocation identity.  Used to
state the frame property of the report compiler: `filter` allocates a
fresh array and `sort` mutates only that fresh array in place. -/
structure ArrayHeap where
  arrays : Nat → List EvaluatedQuestion
  next : Nat

/-- The filter line of the compiler as an allocation:
`const validEvaluations = evaluatedQuestions.filter(q => !q.error)`
creates a fresh array holding the filtered contents of the source array. -/
def allocFiltered (h : ArrayHeap) (src : Nat) : ArrayHeap × Nat :=
  (⟨fun j => if j = h.next then validQuestions (h.arrays src) else h.arrays j,
    h.next + 1⟩, h.next)

/-- The sort line of the compiler as an in-place update:
`validEvaluations.sort(...)` overwrites exactly the array it is called on. -/
def sortInPlace (h : ArrayHeap) (id : Nat) : ArrayHeap :=
  ⟨fun j => if j = id then (h.arrays id).insertionSort scoreGE else h.arrays j,
    h.next⟩

/-- The array manipulations of the report-compiler handler over the heap:
filter into a fresh array, sort that array in place, take the first
TOP_N_QUESTIONS of it.  Returns the final heap and the topQuestions list. -/
def compilerHeapSteps (h : ArrayHeap) (src : Nat) :
    ArrayHeap × List EvaluatedQuestion :=
  let alloc := allocFiltered h src
  let h2 := sortInPlace alloc.1 alloc.2
  (h2, (h2.arrays alloc.2).take TOP_N_QUESTIONS)

/-- C10: the report compiler never mutates its input array.  For every heap
and every allocated input array, after the filter-allocate and in-place
sort steps the input array is unchanged, and the computed topQuestions list
agrees with the functional model of the compiler. -/
theorem report_compiler_input_unchanged (h : ArrayHeap) (src : Nat)
    (hsrc : src < h.next) :
    (compilerHeapSteps h src).1.arrays src = h.arrays src ∧
    (compilerHeapSteps h src).2 =
      (rankQuestions (h.arrays src)).take TOP_N_QUESTIONS := by
  have hne : src ≠ h.next := Nat.ne_of_lt hsrc
  constructor
  · simp [compilerHeapSteps, allocFiltered, sortInPlace, hne]
  · simp [compilerHeapSteps, allocFiltered, sortInPlace, rankQuestions]

/-- C10 witness: a concrete two-element heap array, one entry flagged, is
unchanged by the compiler steps. -/
theorem report_compiler_input_unchanged_witness :
    (compilerHeapSteps ⟨fun _ => [wErrQuestion, wTieA], 1⟩ 0).1.arrays 0 =
      [wErrQuestion, wTieA] :=
  (report_compiler_input_unchanged ⟨fun _ => [wErrQuestion, wTieA], 1⟩ 0
    (by decide)).1

/-- Observable outcome of one per-question evaluation call in the question
judger: either the parsed JSON evaluation object with its four criteria, or
a thrown error with its message (empty completion content, API failure or a
JSON parse failure). -/
inductive EvalResponse where
  | parsed (novelty feasibility impact crossDisciplinary : EvaluationCriterion)
  | failed (msg : String)
deriving DecidableEq, Repr

/-- Rounding to two decimal places, the model of
`parseFloat(x.toFixed(2))`: round half away from zero toward positive
infinity, exact on the quarter-integer means produced by integer criterion
scores. -/
def roundTo2 (x : ℚ) : ℚ := (round (100 * x) : ℤ) / 100

/-- The all-zero placeholder criterion pushed for a failed evaluation. -/
def zeroCriterion : EvaluationCriterion :=
  { score := 0, justification := "Evaluation Error" }

/-- The entry pushed by the judger when evaluating one question fails. -/
def errorEntry (question msg : String) : EvaluatedQuestion :=
  { question := question
    novelty := zeroCriterion
    feasibility := zeroCriterion
    impact := zeroCriterion
    crossDisciplinary := zeroCriterion
    overallScore := 0
    error := some msg }

/-- One iteration of the judger loop over a question: on a parsed response
the source first validates that every score is truthy (a zero score fails
validation and is treated as a parse failure), then computes the overall
score as the mean of the four scores rounded to two decimals; on a failure
it pushes the placeholder entry carrying the error message. -/
def judgeOne (resp : EvalResponse) (question : String) : EvaluatedQuestion :=
  match resp with
  | .failed msg => errorEntry question msg
  | .parsed n f i c =>
    if n.score = 0 ∨ f.score = 0 ∨ i.score = 0 ∨ c.score = 0 then
      errorEntry question
        "Failed to parse OpenAI JSON evaluation: Parsed JSON is missing required evaluation fields or scores."
    else
      { question := question
        novelty := n
        feasibility := f
        impact := i
        crossDisciplinary := c
        overallScore := roundTo2 ((n.score + f.score + i.score + c.score) / 4)
        error := none }

/-- The judger loop from a given question index, with the per-question
evaluation outcomes supplied by an oracle indexed by position. -/
def judgeFrom (oracle : Nat → EvalResponse) : Nat → List String →
    List EvaluatedQuestion
  | _, [] => []
  | i, q :: qs => judgeOne (oracle i) q :: judgeFrom oracle (i + 1) qs

/-- The question-judger handler body: evaluate every question in order,
collecting one entry per question. -/
def judgeQuestions (oracle : Nat → EvalResponse) (questions : List String) :
    List EvaluatedQuestion :=
  judgeFrom oracle 0 questions

theorem judgeFrom_map_question (oracle : Nat → EvalResponse) :
    ∀ (i : Nat) (qs : List String),
      (judgeFrom oracle i qs).map (fun e => e.question) = qs := by
  intro i qs
  induction qs generalizing i with
  | nil => rfl
  | cons q t ih =>
    have hq : (judgeOne (oracle i) q).question = q := by
      cases h : oracle i with
      | failed msg => simp [judgeOne, errorEntry]
      | parsed n f c d =>
        by_cases hz : n.score = 0 ∨ f.score = 0 ∨ c.score = 0 ∨ d.score = 0 <;>
          simp [judgeOne, errorEntry, hz]
    simp [judgeFrom, hq, ih]

theorem judgeFrom_append (oracle : Nat → EvalResponse) :
    ∀ (qs1 qs2 : List String) (i : Nat),
      judgeFrom oracle i (qs1 ++ qs2) =
        judgeFrom oracle i qs1 ++ judgeFrom oracle (i + qs1.length) qs2 := by
  intro qs1
  induction qs1 with
  | nil => intro qs2 i; simp [judgeFrom]
  | cons q t ih =>
    intro qs2 i
    simp [judgeFrom, ih, Nat.add_assoc, Nat.add_comm 1 t.length]

theorem judgeOne_shape (resp : EvalResponse) (question : String) :
    (judgeOne resp question).error = none ∧
      (judgeOne resp question).overallScore =
        roundTo2 (((judgeOne resp question).novelty.score +
          (judgeOne resp question).feasibility.score +
          (judgeOne resp question).impact.score +
          (judgeOne resp question).crossDisciplinary.score) / 4) ∨
    (judgeOne resp question).error ≠ none ∧
      (judgeOne resp question).novelty = zeroCriterion ∧
      (judgeOne resp question).feasibility = zeroCriterion ∧
      (judgeOne resp question).impact = zeroCriterion ∧
      (judgeOne resp question).crossDisciplinary = zeroCriterion ∧
      (judgeOne resp question).overallScore = 0 := by
  cases resp with
  | failed msg => right; simp [judgeOne, errorEntry]
  | parsed n f i c =>
    by_cases hz : n.score = 0 ∨ f.score = 0 ∨ i.score = 0 ∨ c.score = 0
    · right; simp [judgeOne, errorEntry, hz]
    · left; simp [judgeOne, hz]

theorem mem_judgeFrom {e : EvaluatedQuestion} (oracle : Nat → EvalResponse) :
    ∀ (i : Nat) (qs : List String), e ∈ judgeFrom oracle i qs →
      ∃ resp question, e = judgeOne resp question := by
  intro i qs
  induction qs generalizing i with
  | nil => intro h; cases h
  | cons q t ih =>
    intro h
    rcases List.mem_cons.mp h with h1 | h2
    · exact ⟨oracle i, q, h1⟩
    · exact ih (i + 1) h2

theorem judge_entry_shape {e : EvaluatedQuestion} (oracle : Nat → EvalResponse)
    (questions : List String) (he : e ∈ judgeQuestions oracle questions) :
    (e.error = none ∧
      e.overallScore = roundTo2 ((e.novelty.score + e.feasibility.score +
        e.impact.score + e.crossDisciplinary.score) / 4)) ∨
    (e.error ≠ none ∧ e.novelty = zeroCriterion ∧
      e.feasibility = zeroCriterion ∧ e.impact = zeroCriterion ∧
      e.crossDisciplinary = zeroCriterion ∧ e.overallScore = 0) := by
  obtain ⟨resp, question, rfl⟩ := mem_judgeFrom oracle 0 questions he
  rcases judgeOne_shape resp question with ⟨h1, h2⟩ | h
  · exact Or.inl ⟨h1, h2⟩
  · exact Or.inr h

/-- C2: the question judger preserves the input questions exactly and in
order; each produced entry either has no error, carries all four criteria
and the computed overall score, or is error-flagged with the all-zero
placeholder criteria and overall score 0; and the evaluation of a question
is independent of the failures of the others, expressed by the judger
distributing over list concatenation. -/
theorem question_judger_artifact_spec (oracle : Nat → EvalResponse)
    (questions : List String) :
    (judgeQuestions oracle questions).map (fun e => e.question) = questions ∧
    (∀ e ∈ judgeQuestions oracle questions,
      (e.error = none ∧
        e.overallScore = roundTo2 ((e.novelty.score + e.feasibility.score +
          e.impact.score + e.crossDisciplinary.score) / 4)) ∨
      (e.error ≠ none ∧ e.novelty = zeroCriterion ∧
        e.feasibility = zeroCriterion ∧ e.impact = zeroCriterion ∧
        e.crossDisciplinary = zeroCriterion ∧ e.overallScore = 0)) ∧
    (∀ qs2 : List String,
      judgeQuestions oracle (questions ++ qs2) =
        judgeQuestions oracle questions ++
          judgeFrom oracle questions.length qs2) := by
  refine ⟨judgeFrom_map_question oracle 0 questions, ?_, ?_⟩
  · intro e he
    exact judge_entry_shape oracle questions he
  · intro qs2
    have h := judgeFrom_append oracle questions qs2 0
    simpa [judgeQuestions] using h

/-- Concrete evaluation oracle used by witnesses: question 0 parses with
scores 7, 8, 9 and 6, every later question fails. -/
def wJudgeOracle : Nat → EvalResponse :=
  fun i =>
    if i = 0 then
      EvalResponse.parsed ⟨7, "n"⟩ ⟨8, "f"⟩ ⟨9, "i"⟩ ⟨6, "c"⟩
    else
      EvalResponse.failed "OpenAI evaluation response content was empty."

/-- The error entry produced for the second witness question. -/
def wFailedEntry : EvaluatedQuestion :=
  judgeOne (EvalResponse.failed "OpenAI evaluation response content was empty.") "qb"

/-- C2 witness: on a two-question input where the second evaluation fails,
the failed entry satisfies the per-entry disjunction of the theorem. -/
theorem question_judger_artifact_spec_witness :
    (wFailedEntry.error = none ∧
      wFailedEntry.overallScore =
        roundTo2 ((wFailedEntry.novelty.score + wFailedEntry.feasibility.score +
          wFailedEntry.impact.score + wFailedEntry.crossDisciplinary.score) / 4)) ∨
    (wFailedEntry.error ≠ none ∧ wFailedEntry.novelty = zeroCriterion ∧
      wFailedEntry.feasibility = zeroCriterion ∧
      wFailedEntry.impact = zeroCriterion ∧
      wFailedEntry.crossDisciplinary = zeroCriterion ∧
      wFailedEntry.overallScore = 0) :=
  (question_judger_artifact_spec wJudgeOracle ["qa", "qb"]).2.1 wFailedEntry
    (by simp [judgeQuestions, judgeFrom, wFailedEntry, wJudgeOracle])

/-- C3: in every judger output, a non-error entry has overall score equal
to the mean of its four criterion scores rounded to two decimals, and an
error entry has overall score exactly 0. -/
theorem question_judger_overall_score_spec (oracle : Nat → EvalResponse)
    (questions : List String) (e : EvaluatedQuestion)
    (he : e ∈ judgeQuestions oracle questions) :
    (e.error = none →
      e.overallScore = roundTo2 ((e.novelty.score + e.feasibility.score +
        e.impact.score + e.crossDisciplinary.score) / 4)) ∧
    (e.error ≠ none → e.overallScore = 0) := by
  rcases judge_entry_shape oracle questions he with
    ⟨_, h2⟩ | ⟨h1, _, _, _, _, h6⟩
  · exact ⟨fun _ => h2, fun hne => absurd ‹e.error = none› hne⟩
  · exact ⟨fun hn => absurd hn h1, fun _ => h6⟩

/-- The successfully evaluated entry for the first witness question. -/
def wParsedEntry : EvaluatedQuestion :=
  judgeOne (EvalResponse.parsed ⟨7, "n"⟩ ⟨8, "f"⟩ ⟨9, "i"⟩ ⟨6, "c"⟩) "qa"

/-- C3 witness: a concrete non-error judger entry with criterion scores 7,
8, 9 and 6 has overall score equal to the rounded mean of the scores. -/
theorem question_judger_overall_score_spec_witness :
    wParsedEntry.overallScore =
      roundTo2 ((wParsedEntry.novelty.score + wParsedEntry.feasibility.score +
        wParsedEntry.impact.score + wParsedEntry.crossDisciplinary.score) / 4) :=
  (question_judger_overall_score_spec wJudgeOracle ["qa", "qb"] wParsedEntry
    (by simp [judgeQuestions, judgeFrom, wParsedEntry, wJudgeOracle])).1
    (by simp [wParsedEntry, judgeOne])

/-- One search result handed to the content extractor
(url, title, relevance score). -/
structure SearchResult where
  url : String
  title : String
  score : ℚ
deriving DecidableEq, Repr

/-- One entry of the extracted_content artifact.  Mirrors the
ExtractedContent interface: error entries are built with an empty content
string and no excerpt or length. -/
structure ExtractedContent where
  url : String
  title : String
  content : String
  excerpt : Option String
  length : Option Nat
  error : Option String
deriving DecidableEq, Repr

/-- The result of the Readability parse on a fetched page. -/
structure ArticleData where
  title : String
  textContent : String
  excerpt : Option String
  length : Nat
deriving DecidableEq, Repr

/-- Observable outcome of one fetch attempt for one URL: either the fetch
threw (transport error, or the abort fired on timeout, with the message
already rewritten by the catch block), or a response arrived with its ok
flag, status, content type, and the Readability parse of its body. -/
inductive FetchAttempt where
  | fetchThrow (msg : String)
  | fetched (ok : Bool) (status : Nat) (contentType : String)
      (article : Option ArticleData)
deriving DecidableEq, Repr

/-- Retry cap of the extractor loop (MAX_RETRIES = 2, so 3 attempts). -/
def MAX_RETRIES : Nat := 2

/-- Fixed delay between retries in milliseconds (RETRY_DELAY = 1000). -/
def RETRY_DELAY : Nat := 1000

/-- Per-attempt fetch timeout in milliseconds (FETCH_TIMEOUT = 15000). -/
def FETCH_TIMEOUT : Nat := 15000

/-- Substring scan over character lists: true when the needle occurs at
some position of the haystack. -/
def hasSubstrChars (needle : List Char) : List Char → Bool
  | [] => needle.isEmpty
  | c :: cs => List.isPrefixOf needle (c :: cs) || hasSubstrChars needle cs

/-- Model of `contentType.includes("text/html")`. -/
def includesTextHtml (ct : String) : Bool :=
  hasSubstrChars "text/html".toList ct.toList

/-- Drop leading whitespace characters. -/
def dropLeadingWs : List Char → List Char
  | [] => []
  | c :: cs => if c.isWhitespace then dropLeadingWs cs else c :: cs

/-- Model of the JavaScript string trim: drop whitespace on both ends. -/
def jsTrim (s : String) : String :=
  String.mk ((dropLeadingWs (dropLeadingWs s.toList).reverse).reverse)

/-- The per-URL error entry of the extractor: empty content, no excerpt or
length, and the error message. -/
def urlErrorEntry (url title msg : String) : ExtractedContent :=
  { url := url, title := title, content := "", excerpt := none,
    length := none, error := some msg }

/-- One iteration of the extractor retry loop.  The Bool is the success
flag of the source: true ends the loop (successful extraction, or the
non-HTML deterministic skip), false is the catch path that retries.  A
non-ok status and a Readability result with falsy textContent throw in the
source, so they land on the retry path; a non-HTML content type records a
terminal error without throwing. -/
def attemptEval (o : FetchAttempt) (url title : String) :
    Bool × ExtractedContent :=
  match o with
  | .fetchThrow msg => (false, urlErrorEntry url title msg)
  | .fetched ok status ct article =>
    if ok = false then
      (false, urlErrorEntry url title
        ("HTTP error! status: " ++ toString status ++ " for " ++ url))
    else if includesTextHtml ct = false then
      (true, urlErrorEntry url title ("Skipped non-HTML content type: " ++ ct))
    else
      match article with
      | some a =>
        if a.textContent.isEmpty then
          (false, urlErrorEntry url title
            ("Readability could not extract content from " ++ url))
        else
          (true,
            { url := url
              title := jsOrElse (some a.title) title
              content := jsTrim a.textContent
              excerpt := a.excerpt
              length := some a.length
              error := none })
      | none =>
        (false, urlErrorEntry url title
          ("Readability could not extract content from " ++ url))

/-- The extractor retry loop: attempt is the number of attempts already
made, fuel the number still allowed.  Returns the recorded entry, the
number of attempts used, and the list of inter-attempt delays performed. -/
def runUrlGo (oracle : Nat → FetchAttempt) (url title : String) :
    Nat → Nat → ExtractedContent × Nat × List Nat
  | attempt, 0 => (urlErrorEntry url title "unreachable", attempt, [])
  | attempt, fuel + 1 =>
    let res := attemptEval (oracle (attempt + 1)) url title
    if res.1 then (res.2, attempt + 1, [])
    else if fuel = 0 then (res.2, attempt + 1, [])
    else
      let rest := runUrlGo oracle url title (attempt + 1) fuel
      (rest.1, rest.2.1, RETRY_DELAY :: rest.2.2)

/-- Processing of one URL by the extractor: up to MAX_RETRIES + 1
attempts. -/
def runUrl (oracle : Nat → FetchAttempt) (url title : String) :
    ExtractedContent × Nat × List Nat :=
  runUrlGo oracle url title 0 (MAX_RETRIES + 1)

/-- The extractor batch loop from a given result index: a result with a
falsy URL is skipped, every other result contributes exactly the entry its
own retry loop records.  The oracle is indexed by result position and
attempt number. -/
def extractBatchFrom (oracle : Nat → Nat → FetchAttempt) :
    Nat → List SearchResult → List ExtractedContent
  | _, [] => []
  | i, r :: rest =>
    if r.url.isEmpty then extractBatchFrom oracle (i + 1) rest
    else (runUrl (oracle i) r.url r.title).1 :: extractBatchFrom oracle (i + 1) rest

/-- The content-extractor handler body over a batch of search results. -/
def extractBatch (oracle : Nat → Nat → FetchAttempt)
    (results : List SearchResult) : List ExtractedContent :=
  extractBatchFrom oracle 0 results

theorem attemptEval_error_content (o : FetchAttempt) (url title : String) :
    (attemptEval o url title).2.error ≠ none →
      (attemptEval o url title).2.content = "" := by
  cases o with
  | fetchThrow msg => intro _; simp [attemptEval, urlErrorEntry]
  | fetched ok status ct article =>
    by_cases hok : ok = false
    · intro _; simp [attemptEval, hok, urlErrorEntry]
    · by_cases hct : includesTextHtml ct = false
      · intro _; simp [attemptEval, hok, hct, urlErrorEntry]
      · cases article with
        | none => intro _; simp [attemptEval, hok, hct, urlErrorEntry]
        | some a =>
          by_cases htc : a.textContent.isEmpty
          · intro _; simp [attemptEval, hok, hct, htc, urlErrorEntry]
          · intro hcon
            exact absurd (by simp [attemptEval, hok, hct, htc]) hcon

theorem runUrlGo_result_from_attempt (oracle : Nat → FetchAttempt)
    (url title : String) :
    ∀ (fuel attempt : Nat), 0 < fuel →
      ∃ m, (runUrlGo oracle url title attempt fuel).1 =
        (attemptEval (oracle m) url title).2 := by
  intro fuel
  induction fuel with
  | zero => intro _ h; omega
  | succ f ih =>
    intro attempt _
    rw [runUrlGo]
    by_cases h1 : (attemptEval (oracle (attempt + 1)) url title).1
    · exact ⟨attempt + 1, by simp [h1]⟩
    · by_cases h2 : f = 0
      · exact ⟨attempt + 1, by simp [h1, h2]⟩
      · obtain ⟨m, hm⟩ := ih (attempt + 1) (Nat.pos_of_ne_zero h2)
        exact ⟨m, by simp [h1, h2, hm]⟩

theorem runUrl_error_content (oracle : Nat → FetchAttempt)
    (url title : String) :
    (runUrl oracle url title).1.error ≠ none →
      (runUrl oracle url title).1.content = "" := by
  obtain ⟨m, hm⟩ :=
    runUrlGo_result_from_attempt oracle url title (MAX_RETRIES + 1) 0
      (Nat.succ_pos _)
  rw [runUrl, hm]
  exact attemptEval_error_content (oracle m) url title

theorem extractBatchFrom_length (oracle : Nat → Nat → FetchAttempt) :
    ∀ (l : List SearchResult) (i : Nat),
      (extractBatchFrom oracle i l).length =
        (l.filter (fun r => !r.url.isEmpty)).length := by
  intro l
  induction l with
  | nil => intro i; rfl
  | cons r t ih =>
    intro i
    by_cases hu : r.url.isEmpty <;>
      simp [extractBatchFrom, List.filter_cons, hu, ih]

theorem extractBatchFrom_append (oracle : Nat → Nat → FetchAttempt) :
    ∀ (l1 l2 : List SearchResult) (i : Nat),
      extractBatchFrom oracle i (l1 ++ l2) =
        extractBatchFrom oracle i l1 ++
          extractBatchFrom oracle (i + l1.length) l2 := by
  intro l1
  induction l1 with
  | nil => intro l2 i; simp [extractBatchFrom]
  | cons r t ih =>
    intro l2 i
    have harith : i + (t.length + 1) = i + 1 + t.length := by omega
    by_cases hu : r.url.isEmpty <;>
      simp [extractBatchFrom, hu, ih, harith]

theorem mem_extractBatchFrom (oracle : Nat → Nat → FetchAttempt)
    {e : ExtractedContent} :
    ∀ (l : List SearchResult) (j : Nat), e ∈ extractBatchFrom oracle j l →
      ∃ k r, l[k]? = some r ∧ r.url.isEmpty = false ∧
        e = (runUrl (oracle (j + k)) r.url r.title).1 := by
  intro l
  induction l with
  | nil => intro j h; cases h
  | cons r t ih =>
    intro j h
    by_cases hu : r.url.isEmpty
    · rw [extractBatchFrom, if_pos hu] at h
      obtain ⟨k, r0, hk, hr0, he⟩ := ih (j + 1) h
      refine ⟨k + 1, r0, by simpa using hk, hr0, ?_⟩
      have : j + 1 + k = j + (k + 1) := by omega
      rw [← this]; exact he
    · rw [extractBatchFrom, if_neg hu] at h
      rcases List.mem_cons.mp h with h1 | h2
      · exact ⟨0, r, by simp, by simpa using hu, by simpa using h1⟩
      · obtain ⟨k, r0, hk, hr0, he⟩ := ih (j + 1) h2
        refine ⟨k + 1, r0, by simpa using hk, hr0, ?_⟩
        have : j + 1 + k = j + (k + 1) := by omega
        rw [← this]; exact he

/-- C4 counterexample: a batch holding one search result whose URL is
empty has length 1, but the stored extracted_content artifact is empty, so
it does not have exactly one entry per input result: results with a falsy
URL are skipped by the extractor loop. -/
theorem content_extractor_entry_count_counterexample :
    ([({ url := "", title := "t", score := 0 } : SearchResult)].length = 1) ∧
    extractBatch (fun _ _ => FetchAttempt.fetchThrow "network error")
      [{ url := "", title := "t", score := 0 }] = [] ∧
    ¬ (extractBatch (fun _ _ => FetchAttempt.fetchThrow "network error")
        [{ url := "", title := "t", score := 0 }]).length = 1 := by
  refine ⟨rfl, ?_, ?_⟩
  · rw [extractBatch, extractBatchFrom, if_pos (by rfl)]
    rfl
  · rw [extractBatch, extractBatchFrom, if_pos (by rfl)]
    simp [extractBatchFrom]

/-- C4 (amended): the extracted_content artifact has exactly one entry for
each input search result with a non-empty URL; every entry carrying an
error has an empty content body; each entry is exactly what the retry loop
of its own URL records, driven by the oracle column of its own position;
and the batch loop distributes over concatenation, so one URL never aborts
the processing of the others and the handler has no failure path. -/
theorem content_extractor_batch_spec (oracle : Nat → Nat → FetchAttempt)
    (results : List SearchResult) :
    (extractBatch oracle results).length =
      (results.filter (fun r => !r.url.isEmpty)).length ∧
    (∀ e ∈ extractBatch oracle results, e.error ≠ none → e.content = "") ∧
    (∀ e ∈ extractBatch oracle results, ∃ k r, results[k]? = some r ∧
      r.url.isEmpty = false ∧ e = (runUrl (oracle k) r.url r.title).1) ∧
    (∀ l2 : List SearchResult, ∀ i : Nat,
      extractBatchFrom oracle i (results ++ l2) =
        extractBatchFrom oracle i results ++
          extractBatchFrom oracle (i + results.length) l2) := by
  refine ⟨extractBatchFrom_length oracle results 0, ?_, ?_, ?_⟩
  · intro e he hne
    obtain ⟨k, r, _, _, hrun⟩ :=
      mem_extractBatchFrom oracle results 0 he
    rw [hrun] at hne ⊢
    exact runUrl_error_content (oracle (0 + k)) r.url r.title hne
  · intro e he
    obtain ⟨k, r, hk, hu, hrun⟩ := mem_extractBatchFrom oracle results 0 he
    exact ⟨k, r, hk, hu, by simpa using hrun⟩
  · intro l2 i
    exact extractBatchFrom_append oracle results l2 i

/-- Concrete oracle for the C4 witness: the first URL always fails with a
transport error, the second succeeds on its first attempt. -/
def wBatchOracle : Nat → Nat → FetchAttempt :=
  fun i _ =>
    if i = 0 then FetchAttempt.fetchThrow "connect ECONNREFUSED"
    else FetchAttempt.fetched true 200 "text/html"
      (some { title := "Page", textContent := "body text", excerpt := none, length := 9 })

/-- Concrete two-result batch for the C4 witness. -/
def wBatch : List SearchResult :=
  [{ url := "http://a.example", title := "A", score := 1 },
   { url := "http://b.example", title := "B", score := 2 }]

/-- C4 witness: in the concrete two-result batch, the failing first entry
has an error and an empty content body. -/
theorem content_extractor_batch_spec_witness :
    (runUrl (wBatchOracle 0) "http://a.example" "A").1.content = "" :=
  (content_extractor_batch_spec wBatchOracle wBatch).2.1
    (runUrl (wBatchOracle 0) "http://a.example" "A").1
    (by rw [wBatch, extractBatch, extractBatchFrom, if_neg (by decide)]
        exact List.mem_cons_self _ _)
    (by decide)

/-- C5 (amended): the per-URL loop makes between 1 and 3 attempts; every
attempt before the last ended on the retry path; each retry is preceded by
one fixed RETRY_DELAY wait; if the last attempt is terminal (successful
extraction, or the non-HTML deterministic skip, which is therefore never
retried) its entry is recorded, and otherwise the loop stopped because all
3 attempts were used and the last error is recorded as terminal.  Non-ok
statuses, transport errors, timeouts and empty extraction results all land
on the retry path. -/
theorem content_extractor_retry_policy (oracle : Nat → FetchAttempt)
    (url title : String) :
    1 ≤ (runUrl oracle url title).2.1 ∧
    (runUrl oracle url title).2.1 ≤ 3 ∧
    (runUrl oracle url title).2.2 =
      List.replicate ((runUrl oracle url title).2.1 - 1) RETRY_DELAY ∧
    (∀ k, 1 ≤ k → k < (runUrl oracle url title).2.1 →
      (attemptEval (oracle k) url title).1 = false) ∧
    ((attemptEval (oracle (runUrl oracle url title).2.1) url title).1 = true →
      (runUrl oracle url title).1 =
        (attemptEval (oracle (runUrl oracle url title).2.1) url title).2) ∧
    ((attemptEval (oracle (runUrl oracle url title).2.1) url title).1 = false →
      (runUrl oracle url title).2.1 = 3 ∧
      (runUrl oracle url title).1 = (attemptEval (oracle 3) url title).2) := by
  by_cases h1 : (attemptEval (oracle 1) url title).1 = true
  · have hr : runUrl oracle url title =
        ((attemptEval (oracle 1) url title).2, 1, []) := by
      simp [runUrl, MAX_RETRIES, runUrlGo, h1]
    rw [hr]
    refine ⟨le_refl 1, show (1:Nat) ≤ 3 by omega, rfl, ?_, ?_, ?_⟩
    · intro k hk1 hk2
      have hk : k < 1 := hk2
      omega
    · intro _; rfl
    · intro hfalse
      have hf : (attemptEval (oracle 1) url title).1 = false := hfalse
      rw [h1] at hf; cases hf
  · by_cases h2 : (attemptEval (oracle 2) url title).1 = true
    · have hr : runUrl oracle url title =
          ((attemptEval (oracle 2) url title).2, 2, [RETRY_DELAY]) := by
        simp [runUrl, MAX_RETRIES, runUrlGo, h1, h2]
      rw [hr]
      refine ⟨show (1:Nat) ≤ 2 by omega, show (2:Nat) ≤ 3 by omega, rfl,
        ?_, ?_, ?_⟩
      · intro k hk1 hk2
        have hk2n : k < 2 := hk2
        have hk : k = 1 := by omega
        rw [hk]
        exact Bool.eq_false_iff.mpr h1
      · intro _; rfl
      · intro hfalse
        have hf : (attemptEval (oracle 2) url title).1 = false := hfalse
        rw [h2] at hf; cases hf
    · have hr : runUrl oracle url title =
          ((attemptEval (oracle 3) url title).2, 3,
            [RETRY_DELAY, RETRY_DELAY]) := by
        simp [runUrl, MAX_RETRIES, runUrlGo, h1, h2]
      rw [hr]
      refine ⟨show (1:Nat) ≤ 3 by omega, le_refl 3, rfl, ?_, ?_, ?_⟩
      · intro k hk1 hk2
        have hk2n : k < 3 := hk2
        interval_cases k
        · exact Bool.eq_false_iff.mpr h1
        · exact Bool.eq_false_iff.mpr h2
      · intro _; rfl
      · intro _; exact ⟨rfl, rfl⟩

/-- Oracle on which every attempt fetches an ok HTML response whose
Readability extraction yields no text. -/
def cEmptyExtractOracle : Nat → FetchAttempt :=
  fun _ => FetchAttempt.fetched true 200 "text/html"
    (some { title := "T", textContent := "", excerpt := none, length := 0 })

/-- C5 counterexample: a fetch that succeeds but yields no usable extracted
text is not terminal on the first attempt as the claim states: the loop
runs all 3 attempts with two inter-attempt delays, because the source
throws on an empty extraction and the catch block retries every thrown
error. -/
theorem content_extractor_no_retry_counterexample :
    (runUrl cEmptyExtractOracle "http://e.example" "E").2.1 = 3 ∧
    ¬ (runUrl cEmptyExtractOracle "http://e.example" "E").2.1 = 1 ∧
    (runUrl cEmptyExtractOracle "http://e.example" "E").2.2 =
      [RETRY_DELAY, RETRY_DELAY] := by
  refine ⟨by decide, by decide, by decide⟩

/-- Oracle whose first attempt succeeds with usable HTML content. -/
def wFetchOracle : Nat → FetchAttempt :=
  fun _ => FetchAttempt.fetched true 200 "text/html; charset=utf-8"
    (some { title := "Title", textContent := "Body text", excerpt := some "ex",
            length := 9 })

/-- C5 witness: on an oracle that succeeds immediately, the recorded entry
is the entry of the terminal attempt. -/
theorem content_extractor_retry_policy_witness :
    (runUrl wFetchOracle "http://w.example" "W").1 =
      (attemptEval
        (wFetchOracle (runUrl wFetchOracle "http://w.example" "W").2.1)
        "http://w.example" "W").2 :=
  (content_extractor_retry_policy wFetchOracle "http://w.example" "W").2.2.2.2.1
    (by decide)

/-- Minimal JSON value model for the outputs of `JSON.parse`. -/
inductive JsonValue where
  | str (s : String)
  | num (q : ℚ)
  | bool (b : Bool)
  | null
  | arr (items : List JsonValue)
  | obj (fields : List (String × JsonValue))
deriving Repr

/-- The `filter(q => typeof q === "string")` step on a parsed array. -/
def jsStrings (items : List JsonValue) : List String :=
  items.filterMap (fun v =>
    match v with
    | JsonValue.str s => some s
    | _ => none)

/-- The strict-parse branch of the query generator: a root array is used
directly; a root object is used when its queries field holds an array
(an array is always truthy); in every other case the source throws inside
the inner try, which the catch turns into the regex fallback. -/
def parseQueriesFromJson (v : JsonValue) : Option (List String) :=
  match v with
  | JsonValue.arr items => some (jsStrings items)
  | JsonValue.obj fields =>
    match fields.lookup "queries" with
    | some (JsonValue.arr items) => some (jsStrings items)
    | _ => none
  | _ => none

/-- Characters on which the dot of the fallback regex does not match. -/
def isRegexLineBreak (c : Char) : Bool :=
  c = '\n' || c = '\r' || c = Char.ofNat 0x2028 || c = Char.ofNat 0x2029

/-- Scanner for the fallback regex of the query generator, over the
character list: outside a quoted span it looks for an opening quote;
inside one it accumulates until the closing quote, and a line break makes
the attempted match fail so scanning restarts outside.  Giving up on a
line break is sound because a quote would have closed the span earlier. -/
def extractQuotedGo : List Char → Option (List Char) → List String
  | [], _ => []
  | c :: cs, none =>
    if c = '"' then extractQuotedGo cs (some [])
    else extractQuotedGo cs none
  | c :: cs, some acc =>
    if c = '"' then String.mk acc.reverse :: extractQuotedGo cs none
    else if isRegexLineBreak c then extractQuotedGo cs none
    else extractQuotedGo cs (some (c :: acc))

/-- The last-resort fallback of the query generator:
`rawQueries.match(/"(.*?)"/g)` with the quotes stripped from each match. -/
def extractQuoted (raw : String) : List String :=
  extractQuotedGo raw.toList none

/-- The whole parsing cascade of the query generator: strict parse first
(the parse outcome supplied by an oracle), then the quoted-substring
fallback; none models the final throw when even the fallback finds
nothing. -/
def parseCascade (parsed : Option JsonValue) (raw : String) :
    Option (List String) :=
  match parsed with
  | some v =>
    match parseQueriesFromJson v with
    | some qs => some qs
    | none =>
      let ex := extractQuoted raw
      if ex.isEmpty then none else some ex
  | none =>
    let ex := extractQuoted raw
    if ex.isEmpty then none else some ex

/-- One effect of a stage handler on its context: a state write of an
artifact key, or an event emission of a topic. -/
inductive StepAction where
  | setSt (key : String)
  | emitEv (topic : String)
deriving DecidableEq, Repr

/-- Result of one query-generator invocation: the ordered effects of the
handler, and the generated_queries artifact value when one was stored. -/
structure QueryGenRun where
  actions : List StepAction
  queries : Option (List String)
deriving Repr

/-- The query-generator handler (part_007): missing key, empty completion
content, a failed cascade and an empty query list all emit only a
workflow.error event; otherwise the handler stores generated_queries and
then emits queries.generated. -/
def queryGenRun (hasKey : Bool) (content : Option String)
    (parsed : Option JsonValue) : QueryGenRun :=
  if hasKey = false then ⟨[StepAction.emitEv "workflow.error"], none⟩
  else
    match content with
    | none => ⟨[StepAction.emitEv "workflow.error"], none⟩
    | some raw =>
      if raw.isEmpty then ⟨[StepAction.emitEv "workflow.error"], none⟩
      else
        match parseCascade parsed raw with
        | none => ⟨[StepAction.emitEv "workflow.error"], none⟩
        | some qs =>
          if qs.isEmpty then ⟨[StepAction.emitEv "workflow.error"], none⟩
          else
            ⟨[StepAction.setSt "generated_queries",
              StepAction.emitEv "queries.generated"], some qs⟩

/-- C9: whenever the query generator emits queries.generated, the stored
generated_queries artifact is a non-empty list of strings; and whenever
the cascade (strict JSON parse, then the queries field, then the
quoted-substring fallback) yields zero valid queries, the handler emits
only workflow.error. -/
theorem query_generator_nonempty_or_error (hasKey : Bool)
    (content : Option String) (parsed : Option JsonValue) :
    (StepAction.emitEv "queries.generated" ∈ (queryGenRun hasKey content parsed).actions →
      ∃ qs, (queryGenRun hasKey content parsed).queries = some qs ∧ qs ≠ []) ∧
    (∀ raw, content = some raw → raw.isEmpty = false → hasKey = true →
      (parseCascade parsed raw = none ∨ parseCascade parsed raw = some []) →
      (queryGenRun hasKey content parsed).actions =
        [StepAction.emitEv "workflow.error"]) := by
  constructor
  · intro hmem
    by_cases hk : hasKey = false
    · simp [queryGenRun, hk] at hmem
    · cases content with
      | none => simp [queryGenRun, hk] at hmem
      | some raw =>
        by_cases hraw : raw.isEmpty
        · simp [queryGenRun, hk, hraw] at hmem
        · cases hp : parseCascade parsed raw with
          | none => simp [queryGenRun, hk, hraw, hp] at hmem
          | some qs =>
            by_cases hq : qs.isEmpty
            · simp [queryGenRun, hk, hraw, hp, hq] at hmem
            · refine ⟨qs, ?_, ?_⟩
              · simp [queryGenRun, hk, hraw, hp, hq]
              · intro hnil
                rw [hnil] at hq
                exact hq rfl
  · intro raw hc hraw hk hcas
    subst hc
    rcases hcas with h | h <;> simp [queryGenRun, hk, hraw, h]

/-- C9 witness: a completion whose JSON parse is a root array of one string
leads to a stored non-empty query list. -/
theorem query_generator_nonempty_or_error_witness :
    ∃ qs, (queryGenRun true (some "raw")
      (some (JsonValue.arr [JsonValue.str "qc drug discovery"]))).queries =
        some qs ∧ qs ≠ [] :=
  (query_generator_nonempty_or_error true (some "raw")
    (some (JsonValue.arr [JsonValue.str "qc drug discovery"]))).1 (by decide)

/-- Scan of an action trace: true when every emission of the given topic
is preceded by a state write of the given key.  The accumulator records
whether the key has been written yet. -/
def setSeenBefore (key topic : String) : List StepAction → Bool → Bool
  | [], _ => true
  | StepAction.setSt k :: tl, seen =>
    setSeenBefore key topic tl (seen || k == key)
  | StepAction.emitEv t :: tl, seen =>
    (!(t == topic) || seen) && setSeenBefore key topic tl seen

/-- Persist-before-emit check over a whole trace. -/
def persistsBeforeEmit (tr : List StepAction) (key topic : String) : Bool :=
  setSeenBefore key topic tr false

/-- The exa-searcher handler trace (exa-searcher.event.step.ts): missing
key emits only workflow.error; per-query search outcomes are collected,
and when no result at all was gathered only workflow.error is emitted;
otherwise the results are stored under exa_search_results and then
search_results.obtained is emitted. -/
def searcherRun (hasKey : Bool)
    (outcomes : List (Except String (List SearchResult))) : List StepAction :=
  if hasKey = false then [StepAction.emitEv "workflow.error"]
  else
    let allResults :=
      (outcomes.filterMap (fun o =>
        match o with
        | Except.ok rs => some rs
        | Except.error _ => none)).flatten
    if allResults.isEmpty then [StepAction.emitEv "workflow.error"]
    else [StepAction.setSt "exa_search_results",
      StepAction.emitEv "search_results.obtained"]

/-- The content-extractor handler trace (part_005): the handler has no
failure branch; it always stores extracted_content and then emits
content.extracted. -/
def extractorRun (_oracle : Nat → Nat → FetchAttempt)
    (_results : List SearchResult) : List StepAction :=
  [StepAction.setSt "extracted_content", StepAction.emitEv "content.extracted"]

/-- The question-brainstormer parse of the completion: a root array is
used; an object is searched for a queries-like field named questions, then
for the first array-valued field; everything else throws.  The parsed list
is filtered to strings and must be non-empty. -/
def brainstormQuestions (v : JsonValue) : Option (List String) :=
  match v with
  | JsonValue.arr items => some (jsStrings items)
  | JsonValue.obj fields =>
    match fields.lookup "questions" with
    | some (JsonValue.arr items) => some (jsStrings items)
    | _ =>
      match fields.findSome? (fun p =>
        match p.2 with
        | JsonValue.arr items => some items
        | _ => none) with
      | some items => some (jsStrings items)
      | none => none
  | _ => none

/-- The question-brainstormer handler trace
(question-brainstormer.event.step.ts): missing key, a null seed topic,
missing or empty extracted content, empty completion content, a parse
failure and an empty question list all emit only workflow.error; otherwise
the handler stores generated_questions and then emits
questions.generated. -/
def brainstormerRun (hasKey : Bool) (seedTopic : Option String)
    (content : Option (List ExtractedContent)) (llm : Option String)
    (parsed : Option JsonValue) : List StepAction :=
  if hasKey = false then [StepAction.emitEv "workflow.error"]
  else
    match seedTopic with
    | none => [StepAction.emitEv "workflow.error"]
    | some _ =>
      match content with
      | none => [StepAction.emitEv "workflow.error"]
      | some items =>
        if items.isEmpty then [StepAction.emitEv "workflow.error"]
        else
          match llm with
          | none => [StepAction.emitEv "workflow.error"]
          | some raw =>
            if raw.isEmpty then [StepAction.emitEv "workflow.error"]
            else
              match parsed with
              | none => [StepAction.emitEv "workflow.error"]
              | some v =>
                match brainstormQuestions v with
                | none => [StepAction.emitEv "workflow.error"]
                | some qs =>
                  if qs.isEmpty then [StepAction.emitEv "workflow.error"]
                  else [StepAction.setSt "generated_questions",
                    StepAction.emitEv "questions.generated"]

/-- The question-judger handler trace (part_003): missing key emits only
workflow.error; otherwise per-question failures are recorded in the
entries themselves and the handler stores evaluated_questions before
emitting questions.judged. -/
def judgerRun (hasKey : Bool) (_oracle : Nat → EvalResponse)
    (_questions : List String) : List StepAction :=
  if hasKey = false then [StepAction.emitEv "workflow.error"]
  else [StepAction.setSt "evaluated_questions",
    StepAction.emitEv "questions.judged"]

/-- The report-compiler handler trace
(report-compiler.event.step.ts): the success path stores final_report and
then emits report.generated. -/
def compilerRun (_evq : List EvaluatedQuestion) : List StepAction :=
  [StepAction.setSt "final_report", StepAction.emitEv "report.generated"]

/-- C7: in every execution of every pipeline stage, the successor event is
emitted only after the stage artifact has been written: the
persist-before-emit check holds on the trace of the query generator, the
searcher, the content extractor, the brainstormer, the judger and the
report compiler, for every input and oracle. -/
theorem pipeline_persist_before_emit
    (hk1 : Bool) (content : Option String) (parsed : Option JsonValue)
    (hk2 : Bool) (outcomes : List (Except String (List SearchResult)))
    (oracle : Nat → Nat → FetchAttempt) (results : List SearchResult)
    (hk3 : Bool) (seedTopic : Option String)
    (ec : Option (List ExtractedContent)) (llm : Option String)
    (bparsed : Option JsonValue)
    (hk4 : Bool) (joracle : Nat → EvalResponse) (questions : List String)
    (evq : List EvaluatedQuestion) :
    persistsBeforeEmit (queryGenRun hk1 content parsed).actions
      "generated_queries" "queries.generated" = true ∧
    persistsBeforeEmit (searcherRun hk2 outcomes)
      "exa_search_results" "search_results.obtained" = true ∧
    persistsBeforeEmit (extractorRun oracle results)
      "extracted_content" "content.extracted" = true ∧
    persistsBeforeEmit (brainstormerRun hk3 seedTopic ec llm bparsed)
      "generated_questions" "questions.generated" = true ∧
    persistsBeforeEmit (judgerRun hk4 joracle questions)
      "evaluated_questions" "questions.judged" = true ∧
    persistsBeforeEmit (compilerRun evq)
      "final_report" "report.generated" = true := by
  refine ⟨?_, ?_, ?_, ?_, ?_, ?_⟩
  · by_cases hk : hk1 = false
    · simp [queryGenRun, hk, persistsBeforeEmit, setSeenBefore]
    · cases content with
      | none => simp [queryGenRun, hk, persistsBeforeEmit, setSeenBefore]
      | some raw =>
        by_cases hraw : raw.isEmpty
        · simp [queryGenRun, hk, hraw, persistsBeforeEmit, setSeenBefore]
        · cases hp : parseCascade parsed raw with
          | none =>
            simp [queryGenRun, hk, hraw, hp, persistsBeforeEmit, setSeenBefore]
          | some qs =>
            by_cases hq : qs.isEmpty <;>
              simp [queryGenRun, hk, hraw, hp, hq, persistsBeforeEmit,
                setSeenBefore]
  · by_cases hk : hk2 = false
    · simp [searcherRun, hk, persistsBeforeEmit, setSeenBefore]
    · by_cases hres : ((outcomes.filterMap (fun o =>
        match o with
        | Except.ok rs => some rs
        | Except.error _ => none)).flatten).isEmpty <;>
        simp [searcherRun, hk, hres, persistsBeforeEmit, setSeenBefore]
  · simp [extractorRun, persistsBeforeEmit, setSeenBefore]
  · by_cases hk : hk3 = false
    · simp [brainstormerRun, hk, persistsBeforeEmit, setSeenBefore]
    · cases seedTopic with
      | none => simp [brainstormerRun, hk, persistsBeforeEmit, setSeenBefore]
      | some st =>
        cases ec with
        | none => simp [brainstormerRun, hk, persistsBeforeEmit, setSeenBefore]
        | some items =>
          by_cases hi : items.isEmpty
          · simp [brainstormerRun, hk, hi, persistsBeforeEmit, setSeenBefore]
          · cases llm with
            | none =>
              simp [brainstormerRun, hk, hi, persistsBeforeEmit, setSeenBefore]
            | some raw =>
              by_cases hraw : raw.isEmpty
              · simp [brainstormerRun, hk, hi, hraw, persistsBeforeEmit,
                  setSeenBefore]
              · cases bparsed with
                | none =>
                  simp [brainstormerRun, hk, hi, hraw, persistsBeforeEmit,
                    setSeenBefore]
                | some v =>
                  cases hb : brainstormQuestions v with
                  | none =>
                    simp [brainstormerRun, hk, hi, hraw, hb,
                      persistsBeforeEmit, setSeenBefore]
                  | some qs =>
                    by_cases hq : qs.isEmpty <;>
                      simp [brainstormerRun, hk, hi, hraw, hb, hq,
                        persistsBeforeEmit, setSeenBefore]
  · by_cases hk : hk4 = false <;>
      simp [judgerRun, hk, persistsBeforeEmit, setSeenBefore]
  · simp [compilerRun, persistsBeforeEmit, setSeenBefore]

/-- Outcome of one state-store read at the report endpoint: the report was
found, the key is absent, or the store access itself failed. -/
inductive StoreGet where
  | found (r : FinalReport)
  | absent
  | failure (msg : String)

/-- Response of the report-retriever endpoint: status code and the report
body when one is returned. -/
structure RetrieverResponse where
  status : Nat
  report : Option FinalReport

/-- The report-retriever handler (report-retriever.api.step.ts): a missing
or empty traceId query parameter is rejected with 400; otherwise the store
is read at the final_report key of the trace: a found report is returned
with 200, an absent one with 404, and a store failure with 500. -/
def reportRetrieverRun (traceId : Option String)
    (store : String → StoreGet) : RetrieverResponse :=
  match traceId with
  | none => ⟨400, none⟩
  | some t =>
    if t.isEmpty then ⟨400, none⟩
    else
      match store (t ++ ":final_report") with
      | StoreGet.found r => ⟨200, some r⟩
      | StoreGet.absent => ⟨404, none⟩
      | StoreGet.failure _ => ⟨500, none⟩

/-- C8: for every non-empty trace identifier supplied as a query
parameter, a stored final_report is returned with status 200, an absent
artifact (any unknown identifier) yields 404 and never a server error, and
status 500 occurs only when the store access itself fails. -/
theorem report_retriever_status_spec (t : String) (store : String → StoreGet)
    (ht : t.isEmpty = false) :
    (∀ r, store (t ++ ":final_report") = StoreGet.found r →
      reportRetrieverRun (some t) store = ⟨200, some r⟩) ∧
    (store (t ++ ":final_report") = StoreGet.absent →
      reportRetrieverRun (some t) store = ⟨404, none⟩) ∧
    ((reportRetrieverRun (some t) store).status = 500 →
      ∃ msg, store (t ++ ":final_report") = StoreGet.failure msg) := by
  refine ⟨?_, ?_, ?_⟩
  · intro r hr
    simp [reportRetrieverRun, ht, hr]
  · intro hr
    simp [reportRetrieverRun, ht, hr]
  · intro h500
    cases hs : store (t ++ ":final_report") with
    | found r => rw [reportRetrieverRun.eq_def] at h500; simp [ht, hs] at h500
    | absent => rw [reportRetrieverRun.eq_def] at h500; simp [ht, hs] at h500
    | failure msg => exact ⟨msg, rfl⟩

/-- Concrete store for the C8 witness: every key is absent. -/
def wEmptyStore : String → StoreGet := fun _ => StoreGet.absent

/-- C8 witness: an unknown trace identifier yields status 404 with no
body, not a server error. -/
theorem report_retriever_status_spec_witness :
    reportRetrieverRun (some "unknown-trace") wEmptyStore =
      ⟨404, none⟩ :=
  (report_retriever_status_spec "unknown-trace" wEmptyStore rfl).2.1 rfl
